import Mathlib

/-!
# Verification of the IoT MQTT discrete-event simulator core

A shallow embedding, over `ℚ` and association lists, of the network/session
engine of the simulator:

* `sim/metrics/collector.py` — `MetricCollector`, `MetricSnapshot`
* `sim/network/mq_network.py` — `MQTTNetwork` with connect / disconnect /
  publish / subscribe / process_queue / ack / check_keep_alive /
  trigger_failover
* `sim/mac/scheduler.py` — `DutyCycleTracker` and the Zigbee duty-cycle gate
  of `MACScheduler.tx`
* `sim/mobility/models.py` — the random-waypoint sub-step plan of
  `MobilityManager._run`

Python floats are modelled as `ℚ` (all arithmetic used is field arithmetic
and comparisons), dicts as insertion-ordered association lists, and the
module-level `rng` as an explicit stream of pre-drawn samples in `[0,1]`
threaded through the functions that consume it (`uniform(0, b)` is a drawn
sample times `b`).  SimPy's `env.now` is an explicit state component; the
delayed bodies of `env.process(...)` coroutines (`_schedule_ack`,
`_failover_proc`'s recovery half) are kept as explicit pending-work state
that a separate function fires.  Calls to `_deliver` are additionally traced
in a `deliveries` ghost log, and the ids assigned by `publish` in an
`assigned_ids` ghost log; the ghost fields are write-only observations and
feed back into no behaviour.
-/

attribute [local semireducible] Rat.mul Rat.inv Rat.add Rat.sub

/-- Association-list lookup, modelling Python `dict.get` /
indexing (Python dicts preserve insertion order). -/
def lookupA {α β : Type _} [DecidableEq α] (k : α) : List (α × β) → Option β
  | [] => none
  | (k', v) :: rest => if k' = k then some v else lookupA k rest

/-- Association-list insert-or-update, modelling `d[k] = v`: an existing key
keeps its position, a new key is appended at the end. -/
def setA {α β : Type _} [DecidableEq α] (k : α) (v : β) : List (α × β) → List (α × β)
  | [] => [(k, v)]
  | (k', v') :: rest => if k' = k then (k', v) :: rest else (k', v') :: setA k v rest

/-- Association-list removal, modelling `d.pop(k, None)`. -/
def removeA {α β : Type _} [DecidableEq α] (k : α) : List (α × β) → List (α × β)
  | [] => []
  | (k', v') :: rest => if k' = k then rest else (k', v') :: removeA k rest

/-- In-place update of the value stored at a key, if present (models Python
mutation of the object stored in a dict). -/
def updateA {α β : Type _} [DecidableEq α] (k : α) (f : β → β) :
    List (α × β) → List (α × β)
  | [] => []
  | (k', v') :: rest => if k' = k then (k', f v') :: rest else (k', v') :: updateA k f rest

theorem lookupA_setA_self {α β : Type _} [DecidableEq α] (k : α) (v : β)
    (l : List (α × β)) : lookupA k (setA k v l) = some v := by
  induction l with
  | nil => simp [setA, lookupA]
  | cons hd tl ih =>
    by_cases h : hd.1 = k
    · simp [setA, lookupA, h]
    · simp [setA, lookupA, h, ih]

theorem lookupA_setA_ne {α β : Type _} [DecidableEq α] (k k' : α) (v : β)
    (l : List (α × β)) (h : k ≠ k') : lookupA k' (setA k v l) = lookupA k' l := by
  induction l with
  | nil => simp [setA, lookupA, h]
  | cons hd tl ih =>
    by_cases hh : hd.1 = k
    · simp [setA, lookupA, hh, h]
    · simp [setA, lookupA, hh, ih]

theorem lookupA_updateA {α β : Type _} [DecidableEq α] (k k' : α) (f : β → β)
    (l : List (α × β)) :
    lookupA k' (updateA k f l) =
      if k' = k then (lookupA k l).map f else lookupA k' l := by
  induction l with
  | nil => simp [updateA, lookupA]
  | cons hd tl ih =>
    obtain ⟨a, b⟩ := hd
    by_cases hak : a = k
    · subst hak
      by_cases hk : k' = a
      · subst hk
        simp [updateA, lookupA]
      · simp [updateA, lookupA, hk, Ne.symm hk]
    · by_cases hak' : a = k'
      · subst hak'
        simp [updateA, lookupA, hak]
      · simp [updateA, lookupA, hak, hak', ih]

theorem keys_setA_mem {α β : Type _} [DecidableEq α] (k : α) (v : β)
    (l : List (α × β)) (h : k ∈ l.map Prod.fst) :
    (setA k v l).map Prod.fst = l.map Prod.fst := by
  induction l with
  | nil => simp at h
  | cons hd tl ih =>
    by_cases hh : hd.1 = k
    · simp [setA, hh]
    · simp only [List.map_cons, List.mem_cons] at h
      rcases h with h | h
      · exact absurd h.symm hh
      · simp [setA, hh, ih h]

/-- A `foldl` preserves any invariant that each step preserves. -/
theorem foldl_inv {α σ : Type _} (P : σ → Prop) (f : σ → α → σ)
    (hstep : ∀ s a, P s → P (f s a)) :
    ∀ (l : List α) (s : σ), P s → P (l.foldl f s)
  | [], _, hs => hs
  | a :: l, s, hs => foldl_inv P f hstep l (f s a) (hstep s a hs)

/-!
## Metrics (`sim/metrics/collector.py`)

`MetricSnapshot` keeps the numeric fields of the Python dataclass that the
network engine computes (timestamp, delivery ratio, latency, duplicates,
queue depth, raw event counters, queue drops); the purely presentational
per-client maps (positions, battery estimates, gateway overlays, sleep
ratios, topic rates) are outside every claim and are omitted.
-/

structure MetricSnapshot where
  timestamp : ℚ
  delivery_ratio : ℚ
  avg_latency_ms : ℚ
  duplicates : Nat
  broker_queue_depth : Nat
  send_events : Nat
  delivery_events : Nat
  queue_drops : Nat
deriving DecidableEq

/-- `MetricCollector` (the counters used by the broker engine). -/
structure MetricCollector where
  delivery_events : Nat := 0
  send_events : Nat := 0
  duplicate_events : Nat := 0
  total_latency_ms : ℚ := 0
  latency_samples : Nat := 0
  broker_queue_depth : Nat := 0
  snapshots : List MetricSnapshot := []
  topic_counts : List (String × Nat) := []
  client_states : List (String × String) := []
  last_snapshot_time : ℚ := 0
  queue_drops : Nat := 0
deriving DecidableEq

/-- `MetricCollector.record_send`. -/
def MetricCollector.record_send (c : MetricCollector) : MetricCollector :=
  { c with send_events := c.send_events + 1 }

/-- `MetricCollector.record_delivery`. -/
def MetricCollector.record_delivery (c : MetricCollector) (latency_ms : ℚ) :
    MetricCollector :=
  { c with delivery_events := c.delivery_events + 1,
           total_latency_ms := c.total_latency_ms + latency_ms,
           latency_samples := c.latency_samples + 1 }

/-- `MetricCollector.record_duplicate`. -/
def MetricCollector.record_duplicate (c : MetricCollector) : MetricCollector :=
  { c with duplicate_events := c.duplicate_events + 1 }

/-- `MetricCollector.record_queue_drop`. -/
def MetricCollector.record_queue_drop (c : MetricCollector) : MetricCollector :=
  { c with queue_drops := c.queue_drops + 1 }

/-- `MetricCollector.set_broker_queue_depth`. -/
def MetricCollector.set_broker_queue_depth (c : MetricCollector) (depth : Nat) :
    MetricCollector :=
  { c with broker_queue_depth := depth }

/-- `MetricCollector.record_topic`. -/
def MetricCollector.record_topic (c : MetricCollector) (topic : String) :
    MetricCollector :=
  { c with
      topic_counts :=
        setA topic ((lookupA topic c.topic_counts).getD 0 + 1) c.topic_counts }

/-- `MetricCollector.update_client_state`. -/
def MetricCollector.update_client_state (c : MetricCollector)
    (client_id state : String) : MetricCollector :=
  { c with client_states := setA client_id state c.client_states }

/-- `MetricCollector.snapshot` (collector.py lines 108-156), returning the
snapshot together with the collector after its side effects (snapshot
appended, topic counts cleared, `last_snapshot_time` advanced).  The Python
guards `if self.send_events` / `if self.latency_samples` are zero tests. -/
def MetricCollector.snapshot (c : MetricCollector) (timestamp : ℚ) :
    MetricSnapshot × MetricCollector :=
  let delivery_ratio : ℚ :=
    if c.send_events = 0 then 0 else (c.delivery_events : ℚ) / (c.send_events : ℚ)
  let avg_latency : ℚ :=
    if c.latency_samples = 0 then 0 else c.total_latency_ms / (c.latency_samples : ℚ)
  let snap : MetricSnapshot :=
    { timestamp := timestamp
      delivery_ratio := delivery_ratio
      avg_latency_ms := avg_latency
      duplicates := c.duplicate_events
      broker_queue_depth := c.broker_queue_depth
      send_events := c.send_events
      delivery_events := c.delivery_events
      queue_drops := c.queue_drops }
  (snap, { c with snapshots := c.snapshots ++ [snap],
                  topic_counts := [],
                  last_snapshot_time := timestamp })

/-!
## MQTT network (`sim/network/mq_network.py`)
-/

/-- `MQTTMessage` (mq_network.py lines 15-24).  `retries` is the attribute
`check_keep_alive` sets dynamically on the dataclass instance; Python reads
it with `getattr(msg, "retries", 0)`, so it is a field defaulting to 0.
Payloads are opaque byte strings. -/
structure MQTTMessage where
  topic : String
  payload : String
  qos : Nat
  retain : Bool := false
  dup : Bool := false
  msg_id : Option Nat := none
  sender : Option String := none
  timestamp : ℚ := 0
  retries : Nat := 0
deriving DecidableEq

/-- `ClientSession` (mq_network.py lines 27-40).  The `inflight` and
`pending_retransmit` dicts are keyed by `message.msg_id`, which is an
`Optional[int]` in the source (a queued will message has `msg_id=None`),
hence keys of type `Option Nat`. -/
structure ClientSession where
  client_id : String
  clean_session : Bool
  inflight : List (Option Nat × MQTTMessage) := []
  subscriptions : List (String × Nat) := []
  connected : Bool := true
  last_seen : ℚ := 0
  keep_alive : ℚ := 30
  pending_retransmit : List (Option Nat × ℚ) := []
  next_reconnect : ℚ := 0
  will_topic : Option String := none
  will_message : Option String := none
  will_qos : Nat := 0
deriving DecidableEq

/-- `GatewayLink` (mq_network.py lines 43-46). -/
structure GatewayLink where
  latency_ms : ℚ
  loss_rate : ℚ
deriving DecidableEq

/-- `BrokerConfig` (config.py), restricted to the field the engine reads. -/
structure BrokerConfig where
  queue_capacity : Nat := 500
deriving DecidableEq

/-- `SimulationConfig` (config.py), restricted to the fields
`MQTTNetwork` reads. -/
structure SimulationConfig where
  broker : BrokerConfig := {}
  wan_latency_ms : ℚ := 50
  wan_latency_jitter_ms : ℚ := 10
  wan_reconnect_backoff : ℚ × ℚ := (1/2, 5)
  wan_loss_rate : ℚ := 1/100
deriving DecidableEq

/-- State of `MQTTNetwork` (mq_network.py lines 49-66) plus the explicit
simulation clock `now` (SimPy `env.now`) and bookkeeping for the work that
the Python code hands to `env.process`:

* `pending_acks` — broker-side PUBACKs scheduled by `_schedule_ack`
  (client id, message id, due time);
* `pending_recoveries` — due times of the recovery half of
  `_failover_proc` (everything after its `yield env.timeout`);

and two write-only ghost logs used by theorems:

* `deliveries` — one `(client_id, msg_id)` entry per `_deliver` call;
* `assigned_ids` — the ids assigned by successive `publish` calls. -/
structure MQTTNetwork where
  now : ℚ := 0
  metrics : MetricCollector := {}
  sessions : List (String × ClientSession) := []
  retained : List (String × MQTTMessage) := []
  broker_queue : List (MQTTMessage × GatewayLink) := []
  msg_counter : Nat := 1
  config : SimulationConfig := {}
  gateway_links : List (String × GatewayLink) := []
  backoff_state : List (String × ℚ) := []
  retry_limit : Nat := 3
  reconnect_queue : List String := []
  failover_active : Bool := false
  pending_acks : List (String × Option Nat × ℚ) := []
  pending_recoveries : List ℚ := []
  deliveries : List (String × Option Nat) := []
  assigned_ids : List Nat := []
deriving DecidableEq

/-- Install a last-will triple on a session (`session.will_topic,
session.will_message, session.will_qos = will`). -/
def applyWill (will : Option (String × String × Nat)) (sess : ClientSession) :
    ClientSession :=
  match will with
  | none => sess
  | some (wt, wm, wq) =>
      { sess with will_topic := some wt, will_message := some wm, will_qos := wq }

/-- `MQTTNetwork.connect` (lines 68-91).  The session is resumed iff one
exists and `clean_session` is false (`if session and not clean_session`);
otherwise a fresh `ClientSession` replaces any prior one.  The Python method
also returns the session, recoverable here via `lookupA`. -/
def MQTTNetwork.connect (s : MQTTNetwork) (client_id : String)
    (clean_session : Bool) (keep_alive : ℚ)
    (will : Option (String × String × Nat)) : MQTTNetwork :=
  match lookupA client_id s.sessions, clean_session with
  | some sess, false =>
      let sess := { sess with connected := true, last_seen := s.now,
                              keep_alive := keep_alive }
      let sess := applyWill will sess
      { s with sessions := setA client_id sess s.sessions,
               metrics := s.metrics.update_client_state client_id "connected" }
  | _, _ =>
      let sess : ClientSession :=
        { client_id := client_id, clean_session := clean_session,
          keep_alive := keep_alive, last_seen := s.now }
      let sess := applyWill will sess
      { s with sessions := setA client_id sess s.sessions,
               metrics := s.metrics.update_client_state client_id "connected" }

/-- `MQTTNetwork._queue_message` (lines 220-227): capacity check, then
append with a fresh `GatewayLink(latency_ms, loss_rate)`. -/
def MQTTNetwork.queue_message (s : MQTTNetwork) (message : MQTTMessage)
    (loss_rate latency_ms : ℚ) : MQTTNetwork :=
  if s.broker_queue.length ≥ s.config.broker.queue_capacity then
    { s with metrics := s.metrics.record_queue_drop }
  else
    let q := s.broker_queue ++ [(message, ⟨latency_ms, loss_rate⟩)]
    { s with broker_queue := q,
             metrics := (s.metrics.set_broker_queue_depth q.length).record_topic
               message.topic }

/-- `MQTTNetwork.disconnect` (lines 93-111).  `if session.will_topic and
session.will_message` is Python truthiness: both present and non-empty. -/
def MQTTNetwork.disconnect (s : MQTTNetwork) (client_id : String) : MQTTNetwork :=
  match lookupA client_id s.sessions with
  | none => s
  | some sess =>
      let sess' := { sess with connected := false, last_seen := s.now }
      let s := { s with sessions := setA client_id sess' s.sessions }
      let s :=
        match sess.will_topic, sess.will_message with
        | some wt, some wm =>
            if wt ≠ "" ∧ wm ≠ "" then
              s.queue_message
                { topic := wt, payload := wm, qos := sess.will_qos,
                  retain := false, sender := some client_id, timestamp := s.now }
                s.config.wan_loss_rate s.config.wan_latency_ms
            else s
        | _, _ => s
      { s with metrics := s.metrics.update_client_state client_id "disconnected" }

/-- `MQTTNetwork.publish` (lines 113-133).  Assigns `msg_id` from the
counter, increments the counter, stamps sender/time, picks the loss/latency
pair (per-gateway link if known, global WAN default otherwise), records a
send, queues, stores the retained copy, and touches the publisher's
`last_seen`.  (Python raises `KeyError` on line 133 if the publisher has no
session; the embedding's `updateA` is a no-op then.)  The assigned id is
also pushed on the `assigned_ids` ghost log. -/
def MQTTNetwork.publish (s : MQTTNetwork) (client_id : String)
    (message : MQTTMessage) (gateway_id : Option String) : MQTTNetwork :=
  let message := { message with msg_id := some s.msg_counter,
                                sender := some client_id, timestamp := s.now }
  let s := { s with msg_counter := s.msg_counter + 1,
                    assigned_ids := s.assigned_ids ++ [s.msg_counter] }
  let link : ℚ × ℚ :=
    match gateway_id with
    | some gid =>
        match lookupA gid s.gateway_links with
        | some gl => (gl.loss_rate, gl.latency_ms)
        | none => (s.config.wan_loss_rate, s.config.wan_latency_ms)
    | none => (s.config.wan_loss_rate, s.config.wan_latency_ms)
  let s := { s with metrics := s.metrics.record_send }
  let s := s.queue_message message link.1 link.2
  let s :=
    if message.retain then
      { s with retained := setA message.topic message s.retained }
    else s
  { s with sessions :=
      updateA client_id (fun sess => { sess with last_seen := s.now }) s.sessions }

/-- `MQTTNetwork._deliver` (lines 206-209), with the ghost `deliveries`
trace recording the call. -/
def MQTTNetwork.deliver (s : MQTTNetwork) (client_id : String)
    (message : MQTTMessage) (latency_ms : ℚ) (dup : Bool) : MQTTNetwork :=
  let s := { s with metrics := s.metrics.record_delivery latency_ms,
                    deliveries := s.deliveries ++ [(client_id, message.msg_id)] }
  if dup then { s with metrics := s.metrics.record_duplicate } else s

/-- `MQTTNetwork._match` (lines 211-218): exact match or a trailing
wildcard filter matching by prefix. -/
def matchTopic (subscription topic : String) : Bool :=
  if subscription = topic then true
  else if subscription.endsWith "/#" then
    topic.startsWith (subscription.dropRight 2)
  else false

/-- `MQTTNetwork.subscribe` (lines 135-140): register the filter, replay a
retained message for the exact topic at a fixed 5 ms latency, touch
`last_seen`.  (Python raises `KeyError` for an unknown client.) -/
def MQTTNetwork.subscribe (s : MQTTNetwork) (client_id : String)
    (topic : String) (qos : Nat) : MQTTNetwork :=
  match lookupA client_id s.sessions with
  | none => s
  | some sess =>
      let sess := { sess with subscriptions := setA topic qos sess.subscriptions }
      let s := { s with sessions := setA client_id sess s.sessions }
      let s :=
        match lookupA topic s.retained with
        | some m => s.deliver client_id m 5 false
        | none => s
      { s with sessions :=
          updateA client_id (fun x => { x with last_seen := s.now }) s.sessions }

/-- `MQTTNetwork.ack` (lines 170-173). -/
def MQTTNetwork.ack (s : MQTTNetwork) (client_id : String) (msg_id : Nat) :
    MQTTNetwork :=
  { s with
      sessions :=
        updateA client_id
          (fun sess =>
            { sess with
                inflight := removeA (some msg_id) sess.inflight,
                pending_retransmit :=
                  removeA (some msg_id) sess.pending_retransmit })
          s.sessions }

/-- One draw from the pre-sampled `rng` stream; an exhausted stream yields
the determinized tail value 1 (no loss, no spurious duplicate, full
jitter). -/
def rngNext (rng : List ℚ) : ℚ × List ℚ :=
  match rng with
  | [] => (1, [])
  | u :: rest => (u, rest)

/-- First half of `MQTTNetwork.process_queue` (lines 143-149): pop every
queued message, drop it with probability `link.loss_rate`, and give each
survivor a latency of `link.latency_ms + uniform(0, jitter)`. -/
def drainQueue (jitter : ℚ) :
    List (MQTTMessage × GatewayLink) → List ℚ → List (MQTTMessage × ℚ) × List ℚ
  | [], rng => ([], rng)
  | (message, link) :: rest, rng =>
      let (u1, rng) := rngNext rng
      if u1 < link.loss_rate then drainQueue jitter rest rng
      else
        let (u2, rng) := rngNext rng
        let r := drainQueue jitter rest rng
        ((message, link.latency_ms + u2 * jitter) :: r.1, r.2)

/-- Body of the innermost loop of `process_queue` (lines 155-168), for one
subscription filter of one session: on a topic match, register QoS1
in-flight state with a retransmit deadline of twice the delivery latency,
roll the 2% spurious-duplicate chance, record states, deliver (which
re-counts the duplicate, as `_deliver` does), and schedule the broker-side
ack after the same latency. -/
def deliverToSubscription (st : MQTTNetwork × List ℚ) (cid : String)
    (message : MQTTMessage) (latency_ms : ℚ) (topic : String) :
    MQTTNetwork × List ℚ :=
  let s := st.1
  if matchTopic topic message.topic then
    let s :=
      if message.qos = 1 then
        { s with
            sessions :=
              updateA cid
                (fun sess =>
                  { sess with
                      inflight := setA message.msg_id message sess.inflight,
                      pending_retransmit :=
                        setA message.msg_id (s.now + 2 * (latency_ms / 1000))
                          sess.pending_retransmit })
                s.sessions }
      else s
    let u := (rngNext st.2).1
    let rng := (rngNext st.2).2
    let dup : Bool := decide (u < (1/50 : ℚ))
    let s := if dup then { s with metrics := s.metrics.record_duplicate } else s
    let s := { s with metrics := s.metrics.update_client_state cid "connected" }
    let s := s.deliver cid message latency_ms dup
    let s :=
      if message.qos = 1 then
        { s with
            pending_acks :=
              s.pending_acks ++ [(cid, message.msg_id, s.now + latency_ms / 1000)] }
      else s
    (s, rng)
  else (s, st.2)

/-- The per-session part of `process_queue` (lines 152-168): disconnected
sessions are skipped outright; otherwise every subscription filter of the
session is tried in order. -/
def deliverToSession (st : MQTTNetwork × List ℚ) (cid : String)
    (message : MQTTMessage) (latency_ms : ℚ) : MQTTNetwork × List ℚ :=
  match lookupA cid st.1.sessions with
  | none => st
  | some sess =>
      if sess.connected then
        (sess.subscriptions.map Prod.fst).foldl
          (fun acc topic => deliverToSubscription acc cid message latency_ms topic) st
      else st

/-- The per-message part of `process_queue` (lines 150-168): refresh the
queue-depth gauge (the queue was fully drained, so this writes its length
after draining), then visit every session in insertion order. -/
def processMessage (st : MQTTNetwork × List ℚ) (ml : MQTTMessage × ℚ) :
    MQTTNetwork × List ℚ :=
  let s := st.1
  let s := { s with metrics := s.metrics.set_broker_queue_depth s.broker_queue.length }
  (s.sessions.map Prod.fst).foldl
    (fun acc cid => deliverToSession acc cid ml.1 ml.2) (s, st.2)

/-- `MQTTNetwork.process_queue` (lines 142-168). -/
def MQTTNetwork.process_queue (s : MQTTNetwork) (rng : List ℚ) :
    MQTTNetwork × List ℚ :=
  let r := drainQueue s.config.wan_latency_jitter_ms s.broker_queue rng
  let s := { s with broker_queue := [] }
  r.1.foldl processMessage (s, r.2)

/-- `MQTTNetwork._schedule_reconnect` (lines 229-234): the stored backoff
(defaulting to the configured minimum) is doubled and capped *before* use,
stored back, and added to `now` as the session's next reconnect time. -/
def MQTTNetwork.schedule_reconnect (s : MQTTNetwork) (client_id : String) :
    MQTTNetwork :=
  let backoff := (lookupA client_id s.backoff_state).getD s.config.wan_reconnect_backoff.1
  let backoff := min (backoff * 2) s.config.wan_reconnect_backoff.2
  let s := { s with backoff_state := setA client_id backoff s.backoff_state }
  { s with
      sessions :=
        updateA client_id (fun sess => { sess with next_reconnect := s.now + backoff })
          s.sessions }

/-- The retransmit scan of `check_keep_alive` (lines 183-198), folded over
the snapshot `list(session.pending_retransmit.items())` taken when the scan
starts.  Returns the updated session and the `to_requeue` list. -/
def scanPending (now : ℚ) (retry_limit : Nat) :
    List (Option Nat × ℚ) → ClientSession × List MQTTMessage →
      ClientSession × List MQTTMessage
  | [], acc => acc
  | (mid, deadline) :: rest, (sess, toRequeue) =>
      if now ≥ deadline then
        match lookupA mid sess.inflight with
        | none =>
            scanPending now retry_limit rest
              ({ sess with pending_retransmit := removeA mid sess.pending_retransmit },
               toRequeue)
        | some msg =>
            if msg.retries ≥ retry_limit then
              scanPending now retry_limit rest
                ({ sess with
                     pending_retransmit := removeA mid sess.pending_retransmit,
                     inflight := removeA mid sess.inflight },
                 toRequeue)
            else
              let msg' := { msg with retries := msg.retries + 1, dup := true }
              scanPending now retry_limit rest
                ({ sess with
                     inflight := setA mid msg' sess.inflight,
                     pending_retransmit := setA mid (now + 2) sess.pending_retransmit },
                 toRequeue ++ [msg'])
      else scanPending now retry_limit rest (sess, toRequeue)

/-- The keep-alive test of `check_keep_alive` (lines 178-182) for one
session: a silent connected session is force-disconnected and a reconnect
scheduled; a disconnected session whose backoff expired (with
`session.next_reconnect` truthiness) joins the reconnect queue. -/
def keepAliveStep (s : MQTTNetwork) (cid : String) (sess : ClientSession) :
    MQTTNetwork :=
  if sess.connected ∧ s.now - sess.last_seen > sess.keep_alive then
    (s.disconnect cid).schedule_reconnect cid
  else if ¬sess.connected ∧ sess.next_reconnect ≠ 0 ∧
      s.now ≥ sess.next_reconnect then
    { s with reconnect_queue := s.reconnect_queue ++ [cid] }
  else s

/-- The retransmit scan of `check_keep_alive` (lines 183-200) for one
session, followed by the per-session requeue of the `to_requeue` list
through `_queue_message`. -/
def retransmitStep (s : MQTTNetwork) (cid : String) : MQTTNetwork :=
  match lookupA cid s.sessions with
  | none => s
  | some sess =>
      let r := scanPending s.now s.retry_limit sess.pending_retransmit (sess, [])
      let s := { s with sessions := setA cid r.1 s.sessions }
      r.2.foldl
        (fun st m =>
          st.queue_message m st.config.wan_loss_rate st.config.wan_latency_ms)
        s

/-- The per-session body of `check_keep_alive` (lines 177-200). -/
def checkSession (s : MQTTNetwork) (cid : String) : MQTTNetwork :=
  match lookupA cid s.sessions with
  | none => s
  | some sess => retransmitStep (keepAliveStep s cid sess) cid

/-- The trailing `while self.reconnect_queue` loop of `check_keep_alive`
(lines 201-204).  `connect` never appends to `reconnect_queue`, so draining
the snapshot of the queue is the same as the Python `while`/`pop(0)`. -/
def drainReconnects (s : MQTTNetwork) : MQTTNetwork :=
  let queue := s.reconnect_queue
  let s := { s with reconnect_queue := [] }
  queue.foldl
    (fun st cid =>
      match lookupA cid st.sessions with
      | none => st
      | some sess => st.connect cid sess.clean_session sess.keep_alive none)
    s

/-- `MQTTNetwork.check_keep_alive` (lines 175-204): every session (in
insertion order, keys frozen at entry — no operation inside changes the key
set) goes through `checkSession`, then the reconnect queue is drained. -/
def MQTTNetwork.check_keep_alive (s : MQTTNetwork) : MQTTNetwork :=
  drainReconnects ((s.sessions.map Prod.fst).foldl checkSession s)

/-- `MQTTNetwork.trigger_failover` (lines 242-264), up to the `yield`: a
no-op while `failover_active`; otherwise the flag is set, the immediately
scheduled first half of `_failover_proc` disconnects every session and
marks it reconnecting, and the recovery half is left scheduled at
`now + down_seconds`. -/
def MQTTNetwork.trigger_failover (s : MQTTNetwork) (down_seconds : ℚ) :
    MQTTNetwork :=
  if s.failover_active then s
  else
    let s := { s with failover_active := true }
    let metrics :=
      s.sessions.foldl (fun m kv => m.update_client_state kv.1 "reconnecting")
        s.metrics
    { s with
        sessions := s.sessions.map (fun kv => (kv.1, { kv.2 with connected := false })),
        metrics := metrics,
        pending_recoveries := s.pending_recoveries ++ [s.now + down_seconds] }

/-- The reconnect loop of `_failover_proc`'s recovery half: each
`(client_id, clean_session, keep_alive)` triple goes through `connect`. -/
def recoveryFold (ts : List (String × Bool × ℚ)) (st : MQTTNetwork) : MQTTNetwork :=
  ts.foldl (fun acc t => acc.connect t.1 t.2.1 t.2.2 none) st

/-- The recovery half of `_failover_proc` (lines 259-262): reconnect every
session with its own persisted `clean_session` flag and keep-alive, then
clear `failover_active`.  The iteration snapshot matches Python: `connect`
only replaces the entry currently being visited. -/
def MQTTNetwork.run_failover_recovery (s : MQTTNetwork) : MQTTNetwork :=
  match s.pending_recoveries with
  | [] => s
  | _ :: rest =>
      let triples := s.sessions.map (fun kv => (kv.1, kv.2.clean_session, kv.2.keep_alive))
      let s := recoveryFold triples { s with pending_recoveries := rest }
      { s with failover_active := false }

/-!
## Duty-cycle gate (`sim/mac/scheduler.py`)
-/

/-- `DutyCycleTracker` (scheduler.py lines 23-39). -/
structure DutyCycleTracker where
  window_s : ℚ
  limit : ℚ
  usage : List (ℚ × ℚ) := []
deriving DecidableEq

/-- `DutyCycleTracker._prune`: keep intervals with `e >= now - window_s`. -/
def DutyCycleTracker.prune (t : DutyCycleTracker) (now : ℚ) : DutyCycleTracker :=
  { t with usage := t.usage.filter (fun se => decide (now - t.window_s ≤ se.2)) }

/-- `sum(end - start for start, end in self.usage)`. -/
def DutyCycleTracker.usedTime (t : DutyCycleTracker) : ℚ :=
  (t.usage.map (fun se => se.2 - se.1)).sum

/-- `DutyCycleTracker.can_tx`.  In the source this prunes `self.usage` in
place before testing, so the pruned tracker is returned with the verdict. -/
def DutyCycleTracker.can_tx (t : DutyCycleTracker) (now duration_s : ℚ) :
    Bool × DutyCycleTracker :=
  let t := t.prune now
  (decide ((t.usedTime + duration_s) / t.window_s ≤ t.limit), t)

/-- `DutyCycleTracker.record`. -/
def DutyCycleTracker.record (t : DutyCycleTracker) (start e : ℚ) : DutyCycleTracker :=
  { t with usage := t.usage ++ [(start, e)] }

/-- The Zigbee path of `MACScheduler.tx` (scheduler.py lines 67-76 and
104-117) as it affects one node's tracker.  For Zigbee `pre_wait_s = 0`, so
`start_time = now` and `end_time = now + csma_delay + duration_s +
mac_retry_s`: the gate checks only the raw transmit time `duration_s`, but
on success records the whole elapsed `[start_time, end_time)` interval.
The rng-sampled contention delay and MAC-retry time are parameters. -/
def zigbeeTx (t : DutyCycleTracker) (now duration_s csma_delay mac_retry_s : ℚ) :
    Bool × DutyCycleTracker :=
  let r := t.can_tx now duration_s
  if r.1 then (true, r.2.record now (now + csma_delay + duration_s + mac_retry_s))
  else (false, r.2)

/-- Length of the part of `[s, e)` lying inside `[lo, hi]`. -/
def intervalOverlap (s e lo hi : ℚ) : ℚ := max 0 (min e hi - max s lo)

/-- Total airtime that the intervals in `usage` contribute to the trailing
window `[t - w, t]`. -/
def windowUsage (usage : List (ℚ × ℚ)) (t w : ℚ) : ℚ :=
  (usage.map (fun se => intervalOverlap se.1 se.2 (t - w) t)).sum

/-- A run of gated Zigbee transmissions for one node: each step is a
`(start_time, duration_s)` attempt (contention and MAC-retry time zero, so
the recorded interval is exactly the checked transmit time).  Alongside the
tracker we keep the full history of accepted intervals — the tracker prunes
its ledger lazily, the history never forgets. -/
def zigbeeRun (th : DutyCycleTracker × List (ℚ × ℚ)) :
    List (ℚ × ℚ) → DutyCycleTracker × List (ℚ × ℚ)
  | [] => th
  | (now, d) :: rest =>
      let r := zigbeeTx th.1 now d 0 0
      zigbeeRun (r.2, if r.1 then th.2 ++ [(now, now + d)] else th.2) rest

/-- Chronological attempt lists: start times never decrease and durations
are nonnegative (the node's single device process transmits sequentially). -/
def chron : ℚ → List (ℚ × ℚ) → Prop
  | _, [] => True
  | t0, (now, d) :: rest => t0 ≤ now ∧ 0 ≤ d ∧ chron now rest

/-!
## Random-waypoint sub-steps (`sim/mobility/models.py`)
-/

/-- The sub-step plan of the random-waypoint branch of
`MobilityManager._run` (models.py lines 49-61) for a destination at the
given distance: `travel_time = max(distance / speed, 1.0)`,
`steps = max(int(travel_time), 1)` (Python `int` truncation; `travel_time
≥ 1 > 0`, so truncation is the floor), and each sub-step waits
`travel_time / steps` simulated seconds.  Returns `(steps, sub-step
duration)`. -/
def rwpPlan (distance speed : ℚ) : Nat × ℚ :=
  let travel := max (distance / speed) 1
  let steps := max (Int.toNat ⌊travel⌋) 1
  (steps, travel / (steps : ℚ))

/-- The interpolated sub-step positions (models.py lines 55-59):
`frac = (step + 1) / steps`, position `(x + (nx - x) * frac,
y + (ny - y) * frac)`. -/
def rwpPositions (x y nx ny : ℚ) (steps : Nat) : List (ℚ × ℚ) :=
  (List.range steps).map
    (fun (step : Nat) =>
      let frac : ℚ := ((step : ℚ) + 1) / (steps : ℚ)
      (x + (nx - x) * frac, y + (ny - y) * frac))

/-!
## Operation sequences

`Op` packages the public calls a run can make on one broker instance, each
with the data the call consumes (including the rng samples `process_queue`
draws); `runOps` folds them over a state.  `advance` is the SimPy clock
moving forward between events.
-/

inductive Op where
  | advance (dt : ℚ)
  | connect (cid : String) (clean : Bool) (keepAlive : ℚ)
      (will : Option (String × String × Nat))
  | disconnect (cid : String)
  | publish (cid : String) (msg : MQTTMessage) (gw : Option String)
  | subscribe (cid : String) (topic : String) (qos : Nat)
  | processQueue (rng : List ℚ)
  | ack (cid : String) (mid : Nat)
  | checkKeepAlive
  | triggerFailover (down : ℚ)
  | failoverRecovery

def stepOp (s : MQTTNetwork) : Op → MQTTNetwork
  | Op.advance dt => { s with now := s.now + dt }
  | Op.connect cid clean ka will => s.connect cid clean ka will
  | Op.disconnect cid => s.disconnect cid
  | Op.publish cid msg gw => s.publish cid msg gw
  | Op.subscribe cid topic qos => s.subscribe cid topic qos
  | Op.processQueue rng => (s.process_queue rng).1
  | Op.ack cid mid => s.ack cid mid
  | Op.checkKeepAlive => s.check_keep_alive
  | Op.triggerFailover down => s.trigger_failover down
  | Op.failoverRecovery => s.run_failover_recovery

def runOps (s : MQTTNetwork) (ops : List Op) : MQTTNetwork :=
  ops.foldl stepOp s

/-- A freshly constructed broker (`MQTTNetwork.__init__`): counter at 1,
everything else empty, under the given configuration. -/
def initNet (cfg : SimulationConfig) : MQTTNetwork := { config := cfg }

/-!
## Concrete runs used by counterexamples and witnesses

`cfg0` switches WAN loss and latency jitter off so that `process_queue`
is deterministic whatever the rng stream holds.
-/

def cfg0 : SimulationConfig := { wan_loss_rate := 0, wan_latency_jitter_ms := 0 }

/-- Two connected subscribers of topic `t`; one QoS0 publish, then one
`process_queue` tick with no loss and no spurious duplicates. -/
def c1runA : MQTTNetwork :=
  let s := initNet cfg0
  let s := s.connect "a" false 30 none
  let s := s.connect "b" false 30 none
  let s := s.subscribe "a" "t" 0
  let s := s.subscribe "b" "t" 0
  let s := s.publish "a" { topic := "t", payload := "p", qos := 0 } none
  (s.process_queue [1, 1, 1, 1]).1

/-- Client `a` registers a last will on topic `w`, `b` subscribes to `w`;
`a` disconnects (queueing the will outside `publish`), then one
`process_queue` tick delivers it — all without a single recorded send. -/
def c1runB : MQTTNetwork :=
  let s := initNet cfg0
  let s := s.connect "a" false 30 (some ("w", "x", 0))
  let s := s.connect "b" false 30 none
  let s := s.subscribe "b" "w" 0
  let s := s.disconnect "a"
  (s.process_queue [1, 1, 1, 1]).1

/-!
## C1 — delivery-ratio bounds
-/

/-- C1 counterexample.  Run A: one publish fanned out to two subscribers
puts `delivery_ratio = 2 > 1` in the snapshot.  Run B: a will message is
queued by `disconnect` without `record_send`, so one delivery is recorded
with zero sends and the snapshot reports `delivery_ratio = 0` despite a
nonzero delivery count — refuting both `delivery_ratio ≤ 1` and
`delivery_ratio = 0` *exactly* when zero deliveries occurred. -/
theorem delivery_ratio_claim_counterexample :
    ((c1runA.metrics.snapshot 10).1.delivery_ratio = 2 ∧
      ¬(c1runA.metrics.snapshot 10).1.delivery_ratio ≤ 1) ∧
    ((c1runB.metrics.snapshot 10).1.delivery_ratio = 0 ∧
      c1runB.metrics.delivery_events = 1) := by
  decide

/-- C1 (amended): every snapshot's `delivery_ratio` is nonnegative, and it
is `0` whenever zero deliveries have been recorded; it is not bounded by 1
(deliveries are counted per matching subscriber and per retransmission,
sends once per publish), and it is also 0 whenever zero sends were
recorded, even if deliveries occurred. -/
theorem snapshot_delivery_ratio_amended (c : MetricCollector) (t : ℚ) :
    0 ≤ (c.snapshot t).1.delivery_ratio ∧
      (c.delivery_events = 0 → (c.snapshot t).1.delivery_ratio = 0) := by
  constructor
  · dsimp [MetricCollector.snapshot]
    split
    · exact le_refl 0
    · positivity
  · intro h
    dsimp [MetricCollector.snapshot]
    split
    · rfl
    · simp [h]

/-- Witness for C1's amended theorem at a concrete collector with no
deliveries. -/
theorem snapshot_delivery_ratio_amended_witness :
    0 ≤ (MetricCollector.snapshot {} 0).1.delivery_ratio ∧
      (MetricCollector.snapshot {} 0).1.delivery_ratio = 0 :=
  ⟨(snapshot_delivery_ratio_amended {} 0).1,
   (snapshot_delivery_ratio_amended {} 0).2 rfl⟩

/-!
## C5 — publish at queue capacity
-/

/-- C5: a `publish` issued while the broker queue already holds
`queue_capacity` messages leaves the queue unchanged (the message is
dropped, not enqueued) and counts exactly one queue drop.  `publish` is a
total function of the state — the caller always gets the successor state
back; nothing blocks and nothing is raised. -/
theorem publish_queue_full_drop (s : MQTTNetwork) (cid : String)
    (msg : MQTTMessage) (gw : Option String)
    (h : s.broker_queue.length = s.config.broker.queue_capacity) :
    (s.publish cid msg gw).broker_queue = s.broker_queue ∧
      (s.publish cid msg gw).metrics.queue_drops = s.metrics.queue_drops + 1 := by
  unfold MQTTNetwork.publish MQTTNetwork.queue_message
  simp only [h, ge_iff_le, le_refl, if_pos]
  split <;>
    simp [MetricCollector.record_send, MetricCollector.record_queue_drop]

/-- A broker with queue capacity 1 whose queue already holds one message. -/
def c5net : MQTTNetwork :=
  let s := initNet { cfg0 with broker := { queue_capacity := 1 } }
  let s := s.connect "a" false 30 none
  s.queue_message { topic := "q", payload := "z", qos := 0 } 0 50

/-- Witness for C5 at a one-slot queue that is already full. -/
theorem publish_queue_full_drop_witness :
    (c5net.publish "a" { topic := "t", payload := "p", qos := 0 } none).broker_queue
        = c5net.broker_queue ∧
      (c5net.publish "a" { topic := "t", payload := "p", qos := 0 } none).metrics.queue_drops
        = c5net.metrics.queue_drops + 1 :=
  publish_queue_full_drop c5net "a" { topic := "t", payload := "p", qos := 0 } none
    (by decide)

/-!
## C10 — retained publish while the queue is full
-/

/-- C10: a retained publish issued at queue capacity still performs all of
`publish`'s other state updates — the retained copy (with its freshly
assigned id, sender, and timestamp) is stored for the topic, the counter
advances, a send is counted — while the queue itself is left unchanged and
the drop is counted.  The drop rolls back nothing. -/
theorem publish_retained_at_capacity (s : MQTTNetwork) (cid : String)
    (msg : MQTTMessage) (gw : Option String)
    (h : s.broker_queue.length = s.config.broker.queue_capacity)
    (hr : msg.retain = true) :
    (s.publish cid msg gw).broker_queue = s.broker_queue ∧
      (s.publish cid msg gw).metrics.queue_drops = s.metrics.queue_drops + 1 ∧
      lookupA msg.topic (s.publish cid msg gw).retained =
        some { msg with msg_id := some s.msg_counter, sender := some cid,
                        timestamp := s.now } ∧
      (s.publish cid msg gw).msg_counter = s.msg_counter + 1 ∧
      (s.publish cid msg gw).metrics.send_events = s.metrics.send_events + 1 := by
  unfold MQTTNetwork.publish MQTTNetwork.queue_message
  simp only [h, ge_iff_le, le_refl, if_pos, hr, if_true]
  simp [MetricCollector.record_send, MetricCollector.record_queue_drop,
    lookupA_setA_self]

/-- Witness for C10: a full one-slot queue, a retained message. -/
theorem publish_retained_at_capacity_witness :
    (c5net.publish "a" { topic := "t", payload := "p", qos := 0, retain := true }
        none).broker_queue = c5net.broker_queue ∧
      (c5net.publish "a" { topic := "t", payload := "p", qos := 0, retain := true }
          none).metrics.queue_drops = c5net.metrics.queue_drops + 1 ∧
      lookupA "t"
          (c5net.publish "a" { topic := "t", payload := "p", qos := 0, retain := true }
            none).retained =
        some { topic := "t", payload := "p", qos := 0, retain := true,
               msg_id := some c5net.msg_counter, sender := some "a",
               timestamp := c5net.now } ∧
      (c5net.publish "a" { topic := "t", payload := "p", qos := 0, retain := true }
          none).msg_counter = c5net.msg_counter + 1 ∧
      (c5net.publish "a" { topic := "t", payload := "p", qos := 0, retain := true }
          none).metrics.send_events = c5net.metrics.send_events + 1 :=
  publish_retained_at_capacity c5net "a"
    { topic := "t", payload := "p", qos := 0, retain := true } none (by decide) rfl

/-!
## C8 — reconnect backoff
-/

/-- A broker with reconnect backoff configured as `(min, max) = (1, 60)`
and one connected client that has never failed. -/
def c8net : MQTTNetwork :=
  (initNet { cfg0 with wan_reconnect_backoff := (1, 60) }).connect "a" false 30 none

/-- C8 counterexample: with backoff configured `(min, max) = (1, 60)` and
no prior failures, the very first `_schedule_reconnect` stores (and uses)
`min(min_backoff * 2, max) = 2`, not the configured minimum 1 — the stored
backoff is doubled *before* its first use. -/
theorem backoff_first_failure_counterexample :
    c8net.backoff_state = [] ∧
      c8net.config.wan_reconnect_backoff.1 = 1 ∧
      lookupA "a" (c8net.schedule_reconnect "a").backoff_state = some 2 ∧
      (2 : ℚ) ≠ 1 := by
  decide

/-- `n` successive reconnect failures of one client. -/
def backoffIter (s : MQTTNetwork) (cid : String) : Nat → MQTTNetwork
  | 0 => s
  | n + 1 => (backoffIter s cid n).schedule_reconnect cid

theorem backoffIter_config (s : MQTTNetwork) (cid : String) (n : Nat) :
    (backoffIter s cid n).config = s.config := by
  induction n with
  | zero => rfl
  | succ n ih => simp [backoffIter, MQTTNetwork.schedule_reconnect, ih]

theorem schedule_reconnect_lookup (s : MQTTNetwork) (cid : String) :
    lookupA cid (s.schedule_reconnect cid).backoff_state =
      some (min ((lookupA cid s.backoff_state).getD s.config.wan_reconnect_backoff.1 * 2)
        s.config.wan_reconnect_backoff.2) := by
  simp [MQTTNetwork.schedule_reconnect, lookupA_setA_self]

/-- C8 (amended): the scheduled backoff is `min(2 · previous, max)` where
`previous` defaults to the configured minimum — so the *first* failure
already schedules `min(2 · min_backoff, max)`; after `n+1` consecutive
failures it is `min(min_backoff · 2^(n+1), max)`; and a successful
`connect` does not reset the stored backoff state (no reset path exists). -/
theorem reconnect_backoff_amended (s : MQTTNetwork) (cid : String) (n : Nat)
    (hM : 0 ≤ s.config.wan_reconnect_backoff.2)
    (hnone : lookupA cid s.backoff_state = none) :
    lookupA cid (s.schedule_reconnect cid).backoff_state =
        some (min (s.config.wan_reconnect_backoff.1 * 2)
          s.config.wan_reconnect_backoff.2) ∧
      (∀ (cid' : String) (clean : Bool) (ka : ℚ)
          (will : Option (String × String × Nat)),
        (MQTTNetwork.connect s cid' clean ka will).backoff_state = s.backoff_state) ∧
      lookupA cid (backoffIter s cid (n + 1)).backoff_state =
        some (min (s.config.wan_reconnect_backoff.1 * 2 ^ (n + 1))
          s.config.wan_reconnect_backoff.2) := by
  refine ⟨by simp [schedule_reconnect_lookup, hnone], ?_, ?_⟩
  · intro cid' clean ka will
    unfold MQTTNetwork.connect
    split <;> rfl
  · induction n with
    | zero =>
      simp [backoffIter, schedule_reconnect_lookup, hnone, pow_one]
    | succ n ih =>
      have hcfg := backoffIter_config s cid (n + 1)
      have hstep := schedule_reconnect_lookup (backoffIter s cid (n + 1)) cid
      rw [hcfg, ih] at hstep
      have harith :
          min (min (s.config.wan_reconnect_backoff.1 * 2 ^ (n + 1))
              s.config.wan_reconnect_backoff.2 * 2)
            s.config.wan_reconnect_backoff.2 =
          min (s.config.wan_reconnect_backoff.1 * 2 ^ (n + 2))
            s.config.wan_reconnect_backoff.2 := by
        rcases le_total (s.config.wan_reconnect_backoff.1 * 2 ^ (n + 1))
            s.config.wan_reconnect_backoff.2 with hle | hle
        · rw [min_eq_left hle]
          ring_nf
        · rw [min_eq_right hle]
          have h1 : s.config.wan_reconnect_backoff.2 ≤
              s.config.wan_reconnect_backoff.2 * 2 := by linarith
          have h2 : s.config.wan_reconnect_backoff.2 ≤
              s.config.wan_reconnect_backoff.1 * 2 ^ (n + 2) := by
            calc s.config.wan_reconnect_backoff.2
                ≤ s.config.wan_reconnect_backoff.1 * 2 ^ (n + 1) := hle
              _ ≤ s.config.wan_reconnect_backoff.1 * 2 ^ (n + 1) * 2 := by
                  nlinarith [hM.trans hle]
              _ = s.config.wan_reconnect_backoff.1 * 2 ^ (n + 2) := by ring
          rw [min_eq_right h1, min_eq_right h2]
      show lookupA cid (backoffIter s cid (n + 2)).backoff_state = _
      rw [show backoffIter s cid (n + 2) =
        (backoffIter s cid (n + 1)).schedule_reconnect cid from rfl]
      rw [hstep, Option.getD_some, harith]

/-- Witness for C8's amended theorem: two consecutive failures from the
concrete broker give backoff `min(1 · 2^2, 60) = 4`. -/
theorem reconnect_backoff_amended_witness :
    lookupA "a" (c8net.schedule_reconnect "a").backoff_state =
        some (min (c8net.config.wan_reconnect_backoff.1 * 2)
          c8net.config.wan_reconnect_backoff.2) ∧
      (∀ (cid' : String) (clean : Bool) (ka : ℚ)
          (will : Option (String × String × Nat)),
        (MQTTNetwork.connect c8net cid' clean ka will).backoff_state =
          c8net.backoff_state) ∧
      lookupA "a" (backoffIter c8net "a" 2).backoff_state =
        some (min (c8net.config.wan_reconnect_backoff.1 * 2 ^ 2)
          c8net.config.wan_reconnect_backoff.2) :=
  reconnect_backoff_amended c8net "a" 1 (by decide) (by decide)

/-!
## C9 — random-waypoint sub-steps
-/

/-- C9 counterexample: a destination at distance 5 with speed 2 gives
`travel_time = 5/2`; the code truncates to `steps = 2` sub-steps of `5/4`
simulated seconds each, whereas the claim predicts `⌈5/2⌉ = 3` sub-steps of
1 second each. -/
theorem rwp_substep_counterexample :
    rwpPlan 5 2 = (2, 5/4) ∧ ⌈(5 : ℚ) / 2⌉ = 3 ∧
      ¬(rwpPlan 5 2 = (3, 1)) :=
  ⟨by decide, Int.ceil_eq_iff.mpr (by norm_num), by decide⟩

/-- C9 (amended): after picking a destination at distance `d` with speed
`sp`, the position is interpolated across `max(⌊max(d/sp, 1)⌋, 1)` equal
sub-steps (always at least one, one interpolated position each) whose
durations total exactly `max(d/sp, 1)` — the loop then continues straight
to the next destination with no dwell — and this equals the claimed
`⌈d/sp⌉` sub-steps of 1 second exactly when `d/sp` is a positive integer. -/
theorem rwp_plan_amended (d sp : ℚ) :
    1 ≤ (rwpPlan d sp).1 ∧
      ((rwpPlan d sp).1 : ℚ) * (rwpPlan d sp).2 = max (d / sp) 1 ∧
      (∀ (x y nx ny : ℚ) (k : Nat), (rwpPositions x y nx ny k).length = k) ∧
      (∀ n : Nat, 1 ≤ n → d / sp = (n : ℚ) → rwpPlan d sp = (n, 1)) := by
  refine ⟨Nat.le_max_right _ 1, ?_, ?_, ?_⟩
  · have hs : (1 : Nat) ≤ max (Int.toNat ⌊max (d / sp) 1⌋) 1 := Nat.le_max_right _ 1
    have hne : ((max (Int.toNat ⌊max (d / sp) 1⌋) 1 : Nat) : ℚ) ≠ 0 :=
      Nat.cast_ne_zero.mpr (Nat.one_le_iff_ne_zero.mp hs)
    simp only [rwpPlan]
    rw [mul_comm, div_mul_cancel₀ _ hne]
  · intro x y nx ny k
    unfold rwpPositions
    rw [List.length_map, List.length_range]
  · intro n hn hds
    have hcast : (1 : ℚ) ≤ (n : ℚ) := by exact_mod_cast hn
    have htravel : max (d / sp) 1 = (n : ℚ) := by
      rw [hds, max_eq_left hcast]
    have hne : (n : ℚ) ≠ 0 := Nat.cast_ne_zero.mpr (Nat.one_le_iff_ne_zero.mp hn)
    simp only [rwpPlan, htravel, Int.floor_natCast, Int.toNat_natCast,
      Nat.max_eq_left hn]
    rw [div_self hne]

theorem rwp_plan_amended_witness :
    1 ≤ (rwpPlan 6 2).1 ∧ rwpPlan 6 2 = (3, 1) :=
  ⟨(rwp_plan_amended 6 2).1, (rwp_plan_amended 6 2).2.2.2 3 (by norm_num) (by norm_num)⟩

/-!
## C2 — deliveries and disconnected subscribers

`sessionConnected` reads the `connected` flag of a client's broker-side
session (false when no session exists).  The lemmas below push through
`process_queue`'s nested folds: every `_deliver` call it makes targets a
client whose session was connected when the call started, no `connected`
flag changes, and the broker queue is left empty — so a message processed
while a subscriber is disconnected is gone for that subscriber, whatever
its `clean_session` flag; nothing is ever replayed.
-/

def sessionConnected (s : MQTTNetwork) (cid : String) : Bool :=
  ((lookupA cid s.sessions).map ClientSession.connected).getD false

theorem dts_sessions (st : MQTTNetwork × List ℚ) (cid : String)
    (msg : MQTTMessage) (lat : ℚ) (topic : String) :
    (deliverToSubscription st cid msg lat topic).1.sessions = st.1.sessions ∨
      (deliverToSubscription st cid msg lat topic).1.sessions =
        updateA cid
          (fun sess =>
            { sess with
                inflight := setA msg.msg_id msg sess.inflight,
                pending_retransmit :=
                  setA msg.msg_id (st.1.now + 2 * (lat / 1000))
                    sess.pending_retransmit })
          st.1.sessions := by
  unfold deliverToSubscription MQTTNetwork.deliver
  dsimp only
  split_ifs <;> first | exact Or.inl rfl | exact Or.inr rfl

theorem dts_sessionConnected (st : MQTTNetwork × List ℚ) (cid : String)
    (msg : MQTTMessage) (lat : ℚ) (topic : String) (c : String) :
    sessionConnected (deliverToSubscription st cid msg lat topic).1 c =
      sessionConnected st.1 c := by
  rcases dts_sessions st cid msg lat topic with h | h
  · simp only [sessionConnected, h]
  · simp only [sessionConnected, h, lookupA_updateA]
    by_cases hc : c = cid
    · simp only [hc, if_pos rfl]
      cases lookupA cid st.1.sessions <;> rfl
    · simp only [hc, if_neg, ite_false]

theorem dts_broker_queue (st : MQTTNetwork × List ℚ) (cid : String)
    (msg : MQTTMessage) (lat : ℚ) (topic : String) :
    (deliverToSubscription st cid msg lat topic).1.broker_queue =
      st.1.broker_queue := by
  unfold deliverToSubscription MQTTNetwork.deliver
  dsimp only
  split_ifs <;> rfl

theorem dts_deliveries (st : MQTTNetwork × List ℚ) (cid : String)
    (msg : MQTTMessage) (lat : ℚ) (topic : String) :
    (deliverToSubscription st cid msg lat topic).1.deliveries = st.1.deliveries ∨
      (deliverToSubscription st cid msg lat topic).1.deliveries =
        st.1.deliveries ++ [(cid, msg.msg_id)] := by
  unfold deliverToSubscription MQTTNetwork.deliver
  dsimp only
  split_ifs <;> first | exact Or.inl rfl | exact Or.inr rfl

/-- The invariant carried through `process_queue`, relative to the state
`s0` the call started from. -/
def pqInv (s0 : MQTTNetwork) (st : MQTTNetwork × List ℚ) : Prop :=
  (∀ c, sessionConnected st.1 c = sessionConnected s0 c) ∧
    st.1.broker_queue = [] ∧
    (∀ x ∈ st.1.deliveries, x ∈ s0.deliveries ∨ sessionConnected s0 x.1 = true)

theorem dsession_inv (s0 : MQTTNetwork) (st : MQTTNetwork × List ℚ) (cid : String)
    (msg : MQTTMessage) (lat : ℚ) (hP : pqInv s0 st) :
    pqInv s0 (deliverToSession st cid msg lat) := by
  unfold deliverToSession
  cases hl : lookupA cid st.1.sessions with
  | none => exact hP
  | some sess =>
      by_cases hc : sess.connected
      · simp only [hc, if_true]
        have hfold :=
          foldl_inv
            (fun st' : MQTTNetwork × List ℚ =>
              (∀ c, sessionConnected st'.1 c = sessionConnected st.1 c) ∧
                st'.1.broker_queue = st.1.broker_queue ∧
                (∀ x ∈ st'.1.deliveries, x ∈ st.1.deliveries ∨ x.1 = cid))
            (fun acc topic => deliverToSubscription acc cid msg lat topic)
            (fun acc topic hacc =>
              ⟨fun c => (dts_sessionConnected acc cid msg lat topic c).trans (hacc.1 c),
               (dts_broker_queue acc cid msg lat topic).trans hacc.2.1,
               by
                 intro x hx
                 rcases dts_deliveries acc cid msg lat topic with hd | hd
                 · rw [hd] at hx
                   exact hacc.2.2 x hx
                 · rw [hd] at hx
                   rcases List.mem_append.mp hx with hx | hx
                   · exact hacc.2.2 x hx
                   · simp only [List.mem_singleton] at hx
                     subst hx
                     exact Or.inr rfl⟩)
            (sess.subscriptions.map Prod.fst) st
            ⟨fun _ => rfl, rfl, fun x hx => Or.inl hx⟩
        have hconn : sessionConnected st.1 cid = true := by
          simp [sessionConnected, hl, hc]
        refine ⟨fun c => (hfold.1 c).trans (hP.1 c), hfold.2.1.trans hP.2.1, ?_⟩
        intro x hx
        rcases hfold.2.2 x hx with hx' | hx'
        · exact hP.2.2 x hx'
        · refine Or.inr ?_
          rw [hx', ← hP.1 cid]
          exact hconn
      · simp only [hc, if_false]
        exact hP

theorem pmessage_inv (s0 : MQTTNetwork) (st : MQTTNetwork × List ℚ)
    (ml : MQTTMessage × ℚ) (hP : pqInv s0 st) :
    pqInv s0 (processMessage st ml) := by
  unfold processMessage
  exact
    foldl_inv (pqInv s0)
      (fun acc cid => deliverToSession acc cid ml.1 ml.2)
      (fun acc cid hacc => dsession_inv s0 acc cid ml.1 ml.2 hacc)
      _ _ ⟨hP.1, hP.2.1, hP.2.2⟩

/-- C2 (amended): `process_queue` delivers a message only to clients whose
session is connected at processing time, and it always drains the broker
queue completely — a message processed while a subscriber is disconnected
is never delivered to it later, whatever its `clean_session` flag; this
`MQTTNetwork` keeps no offline queue to replay on reconnect. -/
theorem process_queue_only_connected (s : MQTTNetwork) (rng : List ℚ)
    (x : String × Option Nat)
    (hx : x ∈ (s.process_queue rng).1.deliveries) :
    (x ∈ s.deliveries ∨ sessionConnected s x.1 = true) ∧
      (s.process_queue rng).1.broker_queue = [] := by
  have hinv : pqInv s (s.process_queue rng) := by
    unfold MQTTNetwork.process_queue
    exact
      foldl_inv (pqInv s) processMessage (fun acc ml hacc => pmessage_inv s acc ml hacc)
        _ _ ⟨fun _ => rfl, rfl, fun y hy => Or.inl hy⟩
  exact ⟨hinv.2.2 x hx, hinv.2.1⟩

/-- A connected subscriber of `t` and one matching queued message. -/
def c2wNet : MQTTNetwork :=
  let s := (initNet cfg0).connect "a" false 30 none
  let s := s.subscribe "a" "t" 0
  s.queue_message { topic := "t", payload := "p", qos := 0, msg_id := some 9 } 0 50

/-- Witness for C2's amended theorem: the one delivery the tick performs
goes to the connected subscriber, and the queue ends empty. -/
theorem process_queue_only_connected_witness :
    ((("a", some 9) : String × Option Nat) ∈ c2wNet.deliveries ∨
        sessionConnected c2wNet "a" = true) ∧
      (c2wNet.process_queue [1, 1]).1.broker_queue = [] :=
  process_queue_only_connected c2wNet [1, 1] ("a", some 9) (by decide)

/-- Persistent subscriber `a` of topic `t` disconnects; `b` publishes to
`t`; the broker tick runs while `a` is offline; `a` then reconnects with
`clean_session=false`, resuming its session and subscriptions. -/
def c2run : MQTTNetwork :=
  let s := (initNet cfg0).connect "a" false 30 none
  let s := s.subscribe "a" "t" 0
  let s := s.connect "b" false 30 none
  let s := s.disconnect "a"
  let s := s.publish "b" { topic := "t", payload := "p", qos := 0 } none
  let s := (s.process_queue [1, 1]).1
  s.connect "a" false 30 none

/-- C2 counterexample: message 1 was published to `t` while the persistent
subscriber `a` was disconnected; after the broker tick and `a`'s reconnect,
`a`'s session is resumed (clean_session=false, connected, still subscribed
to `t` at QoS 0) yet no delivery to anyone ever happened — the message was
not queued for `a` and is not replayed on reconnect, refuting the claim
that a persistent client receives all such messages upon reconnect. -/
theorem clean_session_replay_counterexample :
    c2run.deliveries = [] ∧
      c2run.assigned_ids = [1] ∧
      (lookupA "a" c2run.sessions).map
          (fun sess =>
            (sess.clean_session, sess.connected, lookupA "t" sess.subscriptions)) =
        some (false, true, some 0) := by
  decide

/-!
## C7 — keep-alive retransmit scan
-/

theorem lookupA_cons_self {α β : Type _} [DecidableEq α] (k : α) (v : β)
    (l : List (α × β)) : lookupA k ((k, v) :: l) = some v := by
  simp [lookupA]

theorem setA_cons_self {α β : Type _} [DecidableEq α] (k : α) (v w : β)
    (l : List (α × β)) : setA k v ((k, w) :: l) = (k, v) :: l := by
  simp [setA]

theorem removeA_cons_self {α β : Type _} [DecidableEq α] (k : α) (w : β)
    (l : List (α × β)) : removeA k ((k, w) :: l) = l := by
  simp [removeA]

/-- C7 (amended): in `check_keep_alive`, for an in-flight QoS1 message
whose retransmit deadline has passed (stated over a one-session broker
whose session is healthy and whose queue has room): if its stored retry
count is still *below* the retry limit, the count is incremented, the
duplicate flag set, the message requeued through `_queue_message` with the
global WAN parameters, and its retransmit deadline reset to `now + 2`;
it is removed from in-flight bookkeeping without retransmission exactly
when its stored retry count has *reached* the limit (`count ≥ limit`) —
not only when it exceeds it, as the claim says. -/
theorem check_keep_alive_retransmit (s : MQTTNetwork) (cid : String)
    (sess : ClientSession) (mid : Nat) (msg : MQTTMessage) (dl : ℚ)
    (h1 : s.sessions = [(cid, sess)])
    (h2 : sess.connected = true)
    (h3 : ¬(s.now - sess.last_seen > sess.keep_alive))
    (h4 : sess.pending_retransmit = [(some mid, dl)])
    (h5 : sess.inflight = [(some mid, msg)])
    (h6 : s.now ≥ dl)
    (h7 : s.reconnect_queue = [])
    (h8 : s.broker_queue.length < s.config.broker.queue_capacity) :
    (msg.retries < s.retry_limit →
      ∃ sess', lookupA cid s.check_keep_alive.sessions = some sess' ∧
        sess'.inflight =
          [(some mid, { msg with retries := msg.retries + 1, dup := true })] ∧
        sess'.pending_retransmit = [(some mid, s.now + 2)] ∧
        s.check_keep_alive.broker_queue =
          s.broker_queue ++
            [({ msg with retries := msg.retries + 1, dup := true },
              { latency_ms := s.config.wan_latency_ms,
                loss_rate := s.config.wan_loss_rate })]) ∧
    (msg.retries ≥ s.retry_limit →
      ∃ sess', lookupA cid s.check_keep_alive.sessions = some sess' ∧
        sess'.inflight = [] ∧ sess'.pending_retransmit = [] ∧
        s.check_keep_alive.broker_queue = s.broker_queue) := by
  have hmap : s.sessions.map Prod.fst = [cid] := by rw [h1]; rfl
  have hcond1 : ¬(sess.connected = true ∧ s.now - sess.last_seen > sess.keep_alive) :=
    fun h => h3 h.2
  have hcond2 : ¬(¬sess.connected = true ∧ sess.next_reconnect ≠ 0 ∧
      s.now ≥ sess.next_reconnect) := fun h => h.1 h2
  unfold MQTTNetwork.check_keep_alive
  rw [hmap]
  simp only [List.foldl]
  unfold checkSession keepAliveStep retransmitStep
  rw [h1, lookupA_cons_self]
  simp only []
  rw [if_neg hcond1, if_neg hcond2, h1, lookupA_cons_self]
  simp only [h4]
  unfold scanPending
  rw [if_pos h6, h5, lookupA_cons_self]
  simp only []
  constructor <;> intro hlim
  · rw [if_neg (by omega)]
    simp only [scanPending, List.foldl, List.nil_append]
    unfold MQTTNetwork.queue_message
    rw [if_neg (not_le.mpr h8)]
    unfold drainReconnects
    rw [h7]
    simp only [List.foldl]
    rw [setA_cons_self, lookupA_cons_self]
    refine ⟨_, rfl, ?_, ?_, ?_⟩
    · simp [setA_cons_self]
    · simp [h4, setA_cons_self]
    · trivial
  · rw [if_pos hlim]
    simp only [scanPending, List.foldl, List.nil_append]
    unfold drainReconnects
    rw [h7]
    simp only [List.foldl]
    rw [setA_cons_self, lookupA_cons_self]
    refine ⟨_, rfl, ?_, ?_, ?_⟩
    · simp [removeA_cons_self]
    · simp [h4, removeA_cons_self]
    · trivial

/-- An in-flight QoS1 message with one prior retry, past its deadline, on a
healthy single-session broker at `now = 5`. -/
def c7msgA : MQTTMessage :=
  { topic := "t", payload := "p", qos := 1, msg_id := some 1, retries := 1 }

def c7sessA : ClientSession :=
  { client_id := "a", clean_session := false, connected := true, last_seen := 0,
    keep_alive := 30, inflight := [(some 1, c7msgA)],
    pending_retransmit := [(some 1, 1)] }

def c7net : MQTTNetwork :=
  { initNet cfg0 with now := 5, sessions := [("a", c7sessA)] }

/-- Witness for C7's amended theorem at the concrete broker `c7net`. -/
theorem check_keep_alive_retransmit_witness :
    (c7msgA.retries < c7net.retry_limit →
      ∃ sess', lookupA "a" c7net.check_keep_alive.sessions = some sess' ∧
        sess'.inflight =
          [(some 1, { c7msgA with retries := c7msgA.retries + 1, dup := true })] ∧
        sess'.pending_retransmit = [(some 1, c7net.now + 2)] ∧
        c7net.check_keep_alive.broker_queue =
          c7net.broker_queue ++
            [({ c7msgA with retries := c7msgA.retries + 1, dup := true },
              { latency_ms := c7net.config.wan_latency_ms,
                loss_rate := c7net.config.wan_loss_rate })]) ∧
    (c7msgA.retries ≥ c7net.retry_limit →
      ∃ sess', lookupA "a" c7net.check_keep_alive.sessions = some sess' ∧
        sess'.inflight = [] ∧ sess'.pending_retransmit = [] ∧
        c7net.check_keep_alive.broker_queue = c7net.broker_queue) :=
  check_keep_alive_retransmit c7net "a" c7sessA 1 c7msgA 1 rfl rfl (by decide)
    rfl rfl (by decide) rfl (by decide)

/-- The same broker, but the message's stored retry count equals the retry
limit (3). -/
def c7msgB : MQTTMessage := { c7msgA with retries := 3 }

def c7netB : MQTTNetwork :=
  { initNet cfg0 with
      now := 5,
      sessions := [("a", { c7sessA with inflight := [(some 1, c7msgB)] })] }

/-- C7 counterexample: a message whose stored retry count *equals* the
retry limit does not exceed it, yet `check_keep_alive` removes it from
in-flight bookkeeping (and requeues nothing) — the code drops at
`retry_count >= retry_limit` while the claim says strictly "exceeds". -/
theorem retry_limit_counterexample :
    (lookupA "a" c7netB.check_keep_alive.sessions).map
        (fun sess => (sess.inflight, sess.pending_retransmit)) = some ([], []) ∧
      c7netB.check_keep_alive.broker_queue = [] ∧
      c7msgB.retries = c7netB.retry_limit ∧
      ¬(c7msgB.retries > c7netB.retry_limit) := by
  decide

/-!
## C4 — failover idempotence and recovery
-/

theorem applyWill_connected (will : Option (String × String × Nat))
    (sess : ClientSession) : (applyWill will sess).connected = sess.connected := by
  cases will with
  | none => rfl
  | some w => obtain ⟨wt, wm, wq⟩ := w; rfl

theorem connect_lookup_self (st : MQTTNetwork) (cid : String) (clean : Bool)
    (ka : ℚ) (will : Option (String × String × Nat)) :
    ∃ sess, lookupA cid (st.connect cid clean ka will).sessions = some sess ∧
      sess.connected = true := by
  unfold MQTTNetwork.connect
  split
  · exact ⟨_, lookupA_setA_self _ _ _, by rw [applyWill_connected]⟩
  · exact ⟨_, lookupA_setA_self _ _ _, by rw [applyWill_connected]⟩

theorem connect_lookup_other (st : MQTTNetwork) (cid cid' : String) (clean : Bool)
    (ka : ℚ) (will : Option (String × String × Nat)) (h : cid ≠ cid') :
    lookupA cid' (st.connect cid clean ka will).sessions =
      lookupA cid' st.sessions := by
  unfold MQTTNetwork.connect
  split
  · exact lookupA_setA_ne cid cid' _ _ h
  · exact lookupA_setA_ne cid cid' _ _ h

theorem connect_keys (st : MQTTNetwork) (cid : String) (clean : Bool) (ka : ℚ)
    (will : Option (String × String × Nat)) (h : cid ∈ st.sessions.map Prod.fst) :
    (st.connect cid clean ka will).sessions.map Prod.fst =
      st.sessions.map Prod.fst := by
  unfold MQTTNetwork.connect
  split
  · exact keys_setA_mem cid _ _ h
  · exact keys_setA_mem cid _ _ h

theorem recoveryFold_lookup_not_mem (ts : List (String × Bool × ℚ))
    (st : MQTTNetwork) (cid : String) (h : cid ∉ ts.map Prod.fst) :
    lookupA cid (recoveryFold ts st).sessions = lookupA cid st.sessions := by
  induction ts generalizing st with
  | nil => rfl
  | cons hd rest ih =>
    simp only [List.map_cons, List.mem_cons, not_or] at h
    rw [show recoveryFold (hd :: rest) st =
          recoveryFold rest (st.connect hd.1 hd.2.1 hd.2.2 none) from rfl,
        ih _ h.2]
    exact connect_lookup_other st hd.1 cid hd.2.1 hd.2.2 none (fun he => h.1 he.symm)

theorem recoveryFold_connects (ts : List (String × Bool × ℚ)) (st : MQTTNetwork)
    (hnd : (ts.map Prod.fst).Nodup) :
    ∀ t ∈ ts, ∃ sess, lookupA t.1 (recoveryFold ts st).sessions = some sess ∧
      sess.connected = true := by
  induction ts generalizing st with
  | nil => simp
  | cons hd rest ih =>
    simp only [List.map_cons, List.nodup_cons] at hnd
    intro t ht
    rcases List.mem_cons.mp ht with rfl | hmem
    · rw [show recoveryFold (t :: rest) st =
            recoveryFold rest (st.connect t.1 t.2.1 t.2.2 none) from rfl,
          recoveryFold_lookup_not_mem rest _ t.1 hnd.1]
      exact connect_lookup_self st t.1 t.2.1 t.2.2 none
    · rw [show recoveryFold (hd :: rest) st =
            recoveryFold rest (st.connect hd.1 hd.2.1 hd.2.2 none) from rfl]
      exact ih _ hnd.2 t hmem

theorem recoveryFold_keys (ts : List (String × Bool × ℚ)) (st : MQTTNetwork)
    (h : ∀ t ∈ ts, t.1 ∈ st.sessions.map Prod.fst) :
    (recoveryFold ts st).sessions.map Prod.fst = st.sessions.map Prod.fst := by
  induction ts generalizing st with
  | nil => rfl
  | cons hd rest ih =>
    have hk := connect_keys st hd.1 hd.2.1 hd.2.2 none (h hd (List.mem_cons_self _ _))
    rw [show recoveryFold (hd :: rest) st =
          recoveryFold rest (st.connect hd.1 hd.2.1 hd.2.2 none) from rfl,
        ih _ ?_, hk]
    intro t ht
    rw [hk]
    exact h t (List.mem_cons_of_mem _ ht)

theorem trigger_failover_active (s : MQTTNetwork) (d : ℚ) :
    (s.trigger_failover d).failover_active = true := by
  unfold MQTTNetwork.trigger_failover
  split
  · next h => exact h
  · rfl

/-- C4: a second `trigger_failover` issued while one is in progress is a
literal no-op (the state, including the schedule of pending recoveries, is
unchanged — so no second overlapping recovery exists), at most one recovery
is ever added, and once the scheduled recovery fires after the down
interval, the session set has exactly its original client ids, each in a
single, connected session. -/
theorem trigger_failover_idempotent (s : MQTTNetwork) (d d' : ℚ)
    (h : (s.sessions.map Prod.fst).Nodup) :
    (s.trigger_failover d).trigger_failover d' = s.trigger_failover d ∧
      (s.trigger_failover d).pending_recoveries.length ≤
        s.pending_recoveries.length + 1 ∧
      (s.failover_active = false →
        ((s.trigger_failover d).run_failover_recovery).sessions.map Prod.fst =
            s.sessions.map Prod.fst ∧
          ∀ cid ∈ s.sessions.map Prod.fst,
            ∃ sess,
              lookupA cid
                  ((s.trigger_failover d).run_failover_recovery).sessions =
                some sess ∧ sess.connected = true) := by
  refine ⟨?_, ?_, ?_⟩
  · by_cases hf : s.failover_active <;>
      simp [MQTTNetwork.trigger_failover, hf]
  · by_cases hf : s.failover_active <;>
      simp [MQTTNetwork.trigger_failover, hf]
  · intro hfa
    have hT : s.trigger_failover d =
        { s with
            failover_active := true,
            sessions :=
              s.sessions.map (fun kv => (kv.1, { kv.2 with connected := false })),
            metrics :=
              s.sessions.foldl
                (fun m kv => m.update_client_state kv.1 "reconnecting") s.metrics,
            pending_recoveries := s.pending_recoveries ++ [s.now + d] } := by
      simp [MQTTNetwork.trigger_failover, hfa]
    set T := s.trigger_failover d with hTdef
    have hkeysT : T.sessions.map Prod.fst = s.sessions.map Prod.fst := by
      rw [hT]
      simp
    have hrec : T.run_failover_recovery =
        { recoveryFold
            (T.sessions.map (fun kv => (kv.1, kv.2.clean_session, kv.2.keep_alive)))
            { T with pending_recoveries := T.pending_recoveries.tail } with
          failover_active := false } := by
      rw [MQTTNetwork.run_failover_recovery]
      have hp : T.pending_recoveries = s.pending_recoveries ++ [s.now + d] := by
        rw [hT]
      rcases hq : T.pending_recoveries with _ | ⟨a, rest⟩
      · rw [hp] at hq
        exact absurd hq (by simp)
      · simp [hq]
    set ts := T.sessions.map (fun kv => (kv.1, kv.2.clean_session, kv.2.keep_alive))
      with hts
    set base : MQTTNetwork := { T with pending_recoveries := T.pending_recoveries.tail }
      with hbase
    have htsfst : ts.map Prod.fst = s.sessions.map Prod.fst := by
      rw [hts, ← hkeysT, List.map_map]
      rfl
    have hbases : base.sessions = T.sessions := rfl
    have hmem : ∀ t ∈ ts, t.1 ∈ base.sessions.map Prod.fst := by
      intro t ht
      rw [hbases, hkeysT, ← htsfst]
      exact List.mem_map_of_mem Prod.fst ht
    constructor
    · rw [hrec]
      show (recoveryFold ts base).sessions.map Prod.fst = _
      rw [recoveryFold_keys ts base hmem, hbases, hkeysT]
    · intro cid hcid
      have hcid' : cid ∈ ts.map Prod.fst := by rw [htsfst]; exact hcid
      obtain ⟨t, ht, hteq⟩ := List.mem_map.mp hcid'
      have hnd : (ts.map Prod.fst).Nodup := by rw [htsfst]; exact h
      obtain ⟨sess, hlook, hconn⟩ := recoveryFold_connects ts base hnd t ht
      refine ⟨sess, ?_, hconn⟩
      rw [hrec]
      show lookupA cid (recoveryFold ts base).sessions = some sess
      rw [← hteq]
      exact hlook

/-- Two connected clients, one clean-session and one persistent. -/
def c4net : MQTTNetwork :=
  ((initNet cfg0).connect "a" true 30 none).connect "b" false 30 none

/-- Witness for C4 at a two-client broker. -/
theorem trigger_failover_idempotent_witness :
    (c4net.trigger_failover 10).trigger_failover 7 = c4net.trigger_failover 10 ∧
      ∃ sess,
        lookupA "a" ((c4net.trigger_failover 10).run_failover_recovery).sessions =
          some sess ∧ sess.connected = true :=
  ⟨(trigger_failover_idempotent c4net 10 7 (by decide)).1,
   ((trigger_failover_idempotent c4net 10 7 (by decide)).2.2 rfl).2 "a" (by decide)⟩

/-!
## C6 — message-id monotonicity

`idState` projects the `(msg_counter, assigned_ids)` pair; every operation
except `publish` leaves it untouched (in particular `check_keep_alive`'s
retransmissions requeue the same message object without assigning any id),
and `publish` appends the current counter and increments it.
-/

theorem foldl_pres_eq {α σ γ : Type _} (f : σ → α → σ) (g : σ → γ)
    (h : ∀ s a, g (f s a) = g s) : ∀ (l : List α) (s : σ), g (l.foldl f s) = g s
  | [], _ => rfl
  | a :: l, s => (foldl_pres_eq f g h l (f s a)).trans (h s a)

def idState (s : MQTTNetwork) : Nat × List Nat := (s.msg_counter, s.assigned_ids)

theorem idState_queue_message (s : MQTTNetwork) (m : MQTTMessage) (lr lm : ℚ) :
    idState (s.queue_message m lr lm) = idState s := by
  unfold MQTTNetwork.queue_message
  split_ifs <;> rfl

theorem idState_connect (s : MQTTNetwork) (cid : String) (clean : Bool) (ka : ℚ)
    (will : Option (String × String × Nat)) :
    idState (s.connect cid clean ka will) = idState s := by
  unfold MQTTNetwork.connect
  split <;> rfl

theorem idState_disconnect (s : MQTTNetwork) (cid : String) :
    idState (s.disconnect cid) = idState s := by
  unfold MQTTNetwork.disconnect MQTTNetwork.queue_message
  split
  · rfl
  · dsimp only
    split <;> first | rfl | (split_ifs <;> rfl)

theorem idState_subscribe (s : MQTTNetwork) (cid topic : String) (qos : Nat) :
    idState (s.subscribe cid topic qos) = idState s := by
  unfold MQTTNetwork.subscribe MQTTNetwork.deliver
  split
  · rfl
  · dsimp only
    split <;> first | rfl | (split_ifs <;> rfl)

theorem idState_ack (s : MQTTNetwork) (cid : String) (mid : Nat) :
    idState (s.ack cid mid) = idState s := rfl

theorem idState_schedule_reconnect (s : MQTTNetwork) (cid : String) :
    idState (s.schedule_reconnect cid) = idState s := rfl

theorem idState_dts (st : MQTTNetwork × List ℚ) (cid : String) (msg : MQTTMessage)
    (lat : ℚ) (topic : String) :
    idState (deliverToSubscription st cid msg lat topic).1 = idState st.1 := by
  unfold deliverToSubscription MQTTNetwork.deliver
  dsimp only
  split_ifs <;> rfl

theorem idState_dsession (st : MQTTNetwork × List ℚ) (cid : String)
    (msg : MQTTMessage) (lat : ℚ) :
    idState (deliverToSession st cid msg lat).1 = idState st.1 := by
  unfold deliverToSession
  split
  · rfl
  · split_ifs
    · exact foldl_pres_eq _ (fun st' : MQTTNetwork × List ℚ => idState st'.1)
        (fun st' t => idState_dts st' cid msg lat t) _ st
    · rfl

theorem idState_pmessage (st : MQTTNetwork × List ℚ) (ml : MQTTMessage × ℚ) :
    idState (processMessage st ml).1 = idState st.1 := by
  unfold processMessage
  exact foldl_pres_eq _ (fun st' : MQTTNetwork × List ℚ => idState st'.1)
    (fun st' c => idState_dsession st' c ml.1 ml.2) _ _

theorem idState_process_queue (s : MQTTNetwork) (rng : List ℚ) :
    idState (s.process_queue rng).1 = idState s := by
  unfold MQTTNetwork.process_queue
  exact foldl_pres_eq _ (fun st' : MQTTNetwork × List ℚ => idState st'.1)
    (fun st' ml => idState_pmessage st' ml) _ _

theorem idState_keepAliveStep (s : MQTTNetwork) (cid : String)
    (sess : ClientSession) : idState (keepAliveStep s cid sess) = idState s := by
  unfold keepAliveStep
  split_ifs
  · rw [idState_schedule_reconnect, idState_disconnect]
  · rfl
  · rfl

theorem idState_retransmitStep (s : MQTTNetwork) (cid : String) :
    idState (retransmitStep s cid) = idState s := by
  unfold retransmitStep
  split
  · rfl
  · exact foldl_pres_eq _ idState
      (fun st m => idState_queue_message st m st.config.wan_loss_rate
        st.config.wan_latency_ms) _ _

theorem idState_checkSession (s : MQTTNetwork) (cid : String) :
    idState (checkSession s cid) = idState s := by
  unfold checkSession
  split
  · rfl
  · rw [idState_retransmitStep, idState_keepAliveStep]

theorem idState_drainReconnects (s : MQTTNetwork) :
    idState (drainReconnects s) = idState s := by
  unfold drainReconnects
  refine foldl_pres_eq _ idState (fun st cid => ?_) _ _
  split
  · rfl
  · exact idState_connect _ _ _ _ _

theorem idState_check_keep_alive (s : MQTTNetwork) :
    idState s.check_keep_alive = idState s := by
  unfold MQTTNetwork.check_keep_alive
  rw [idState_drainReconnects]
  exact foldl_pres_eq _ idState (fun st cid => idState_checkSession st cid) _ _

theorem idState_trigger_failover (s : MQTTNetwork) (d : ℚ) :
    idState (s.trigger_failover d) = idState s := by
  unfold MQTTNetwork.trigger_failover
  split_ifs <;> rfl

theorem idState_run_failover_recovery (s : MQTTNetwork) :
    idState s.run_failover_recovery = idState s := by
  unfold MQTTNetwork.run_failover_recovery
  split
  · rfl
  · rw [show ∀ st : MQTTNetwork, idState { st with failover_active := false } = idState st
        from fun _ => rfl]
    exact foldl_pres_eq _ idState
      (fun (st : MQTTNetwork) (t : String × Bool × ℚ) =>
        idState_connect st t.1 t.2.1 t.2.2 none) _ _

theorem stepOp_ids (s : MQTTNetwork) (op : Op) :
    ((stepOp s op).msg_counter = s.msg_counter ∧
      (stepOp s op).assigned_ids = s.assigned_ids) ∨
    ((stepOp s op).msg_counter = s.msg_counter + 1 ∧
      (stepOp s op).assigned_ids = s.assigned_ids ++ [s.msg_counter]) := by
  cases op with
  | advance dt => exact Or.inl ⟨rfl, rfl⟩
  | connect cid clean ka will =>
      have h := idState_connect s cid clean ka will
      exact Or.inl ⟨congrArg Prod.fst h, congrArg Prod.snd h⟩
  | disconnect cid =>
      have h := idState_disconnect s cid
      exact Or.inl ⟨congrArg Prod.fst h, congrArg Prod.snd h⟩
  | publish cid msg gw =>
      refine Or.inr ⟨?_, ?_⟩ <;>
        · unfold stepOp MQTTNetwork.publish MQTTNetwork.queue_message
          dsimp only
          split_ifs <;> rfl
  | subscribe cid topic qos =>
      have h := idState_subscribe s cid topic qos
      exact Or.inl ⟨congrArg Prod.fst h, congrArg Prod.snd h⟩
  | processQueue rng =>
      have h := idState_process_queue s rng
      exact Or.inl ⟨congrArg Prod.fst h, congrArg Prod.snd h⟩
  | ack cid mid => exact Or.inl ⟨rfl, rfl⟩
  | checkKeepAlive =>
      have h := idState_check_keep_alive s
      exact Or.inl ⟨congrArg Prod.fst h, congrArg Prod.snd h⟩
  | triggerFailover down =>
      have h := idState_trigger_failover s down
      exact Or.inl ⟨congrArg Prod.fst h, congrArg Prod.snd h⟩
  | failoverRecovery =>
      have h := idState_run_failover_recovery s
      exact Or.inl ⟨congrArg Prod.fst h, congrArg Prod.snd h⟩

def idInv (s : MQTTNetwork) : Prop :=
  (∀ i ∈ s.assigned_ids, i < s.msg_counter) ∧ s.assigned_ids.Pairwise (· < ·)

theorem idInv_step (s : MQTTNetwork) (op : Op) (h : idInv s) : idInv (stepOp s op) := by
  rcases stepOp_ids s op with ⟨hc, ha⟩ | ⟨hc, ha⟩
  · exact ⟨fun i hi => hc ▸ h.1 i (ha ▸ hi), ha ▸ h.2⟩
  · constructor
    · intro i hi
      rw [ha] at hi
      rw [hc]
      rcases List.mem_append.mp hi with hi | hi
      · exact (h.1 i hi).trans (Nat.lt_succ_self _)
      · simp only [List.mem_singleton] at hi
        omega
    · rw [ha]
      refine List.pairwise_append.mpr ⟨h.2, List.pairwise_singleton _ _, ?_⟩
      intro a ha' b hb
      simp only [List.mem_singleton] at hb
      subst hb
      exact h.1 a ha'

/-- C6: over any operation sequence on one broker instance, the message ids
assigned by successive `publish` calls form a strictly increasing sequence
(`Pairwise (· < ·)` on the assignment log), so an id is never reassigned or
reused by any later publish, and retransmissions assign no ids at all. -/
theorem publish_ids_strictly_increasing (cfg : SimulationConfig) (ops : List Op) :
    ((runOps (initNet cfg) ops).assigned_ids).Pairwise (· < ·) :=
  (foldl_inv idInv stepOp idInv_step ops (initNet cfg)
    ⟨fun i hi => absurd hi (List.not_mem_nil i), List.Pairwise.nil⟩).2

/-!
## C3 — Zigbee duty-cycle window bound

The gate checks only the raw transmit duration but records the whole
elapsed `[start, end)` interval (contention + duration + MAC retry), so
the recorded in-window airtime can exceed `L*W` — the counterexample.  When
every recorded interval is exactly its checked duration (contention and
retry time zero), the sliding-window bound does hold over the full history
of accepted transmissions, pruning notwithstanding — the amended theorem.
-/

theorem intervalOverlap_nonneg (s e lo hi : ℚ) : 0 ≤ intervalOverlap s e lo hi :=
  le_max_left 0 _

theorem intervalOverlap_le_len (s e lo hi : ℚ) (h : s ≤ e) :
    intervalOverlap s e lo hi ≤ e - s := by
  unfold intervalOverlap
  apply max_le
  · linarith
  · have h1 : min e hi ≤ e := min_le_left _ _
    have h2 : s ≤ max s lo := le_max_left _ _
    linarith

theorem intervalOverlap_zero_of_le (s e lo hi : ℚ) (h : e ≤ lo) :
    intervalOverlap s e lo hi = 0 := by
  unfold intervalOverlap
  apply max_eq_left
  have h1 : min e hi ≤ e := min_le_left _ _
  have h2 : lo ≤ max s lo := le_max_right _ _
  linarith

theorem intervalOverlap_zero_of_ge (s e lo hi : ℚ) (h : hi ≤ s) :
    intervalOverlap s e lo hi = 0 := by
  unfold intervalOverlap
  apply max_eq_left
  have h1 : min e hi ≤ hi := min_le_right _ _
  have h2 : s ≤ max s lo := le_max_left _ _
  linarith

theorem windowUsage_append (u v : List (ℚ × ℚ)) (t w : ℚ) :
    windowUsage (u ++ v) t w = windowUsage u t w + windowUsage v t w := by
  unfold windowUsage
  rw [List.map_append, List.sum_append]

theorem windowUsage_le_sum : ∀ (l : List (ℚ × ℚ)), (∀ se ∈ l, se.1 ≤ se.2) →
    ∀ (t w : ℚ), windowUsage l t w ≤ (l.map (fun se => se.2 - se.1)).sum
  | [], _, t, w => by simp [windowUsage]
  | hd :: tl, h, t, w => by
      have h1 := intervalOverlap_le_len hd.1 hd.2 (t - w) t (h hd (List.mem_cons_self _ _))
      have h2 := windowUsage_le_sum tl (fun se hse => h se (List.mem_cons_of_mem _ hse)) t w
      simp only [windowUsage, List.map_cons, List.sum_cons] at h2 ⊢
      linarith

theorem windowUsage_eq_zero (l : List (ℚ × ℚ)) (t w : ℚ)
    (h : ∀ se ∈ l, intervalOverlap se.1 se.2 (t - w) t = 0) :
    windowUsage l t w = 0 := by
  unfold windowUsage
  apply List.sum_eq_zero
  intro x hx
  obtain ⟨se, hse, rfl⟩ := List.mem_map.mp hx
  exact h se hse

theorem windowUsage_filter_split (p : ℚ × ℚ → Bool) :
    ∀ (l : List (ℚ × ℚ)) (t w : ℚ),
      windowUsage l t w =
        windowUsage (l.filter p) t w +
          windowUsage (l.filter (fun se => !(p se))) t w
  | [], _, _ => by simp [windowUsage]
  | hd :: tl, t, w => by
      have ih := windowUsage_filter_split p tl t w
      simp only [windowUsage, List.map_cons, List.sum_cons] at ih ⊢
      by_cases hp : p hd
      · simp only [List.filter_cons, hp, Bool.not_true, Bool.false_eq_true,
          ite_false, ite_true, List.map_cons, List.sum_cons]
        linarith
      · have hp' : p hd = false := by simpa using hp
        simp only [List.filter_cons, hp', Bool.not_false, Bool.false_eq_true,
          ite_false, ite_true, List.map_cons, List.sum_cons]
        linarith

theorem filter_cutoff_mono (c c' : ℚ) (h : c ≤ c') (l : List (ℚ × ℚ)) :
    (l.filter (fun se => decide (c ≤ se.2))).filter (fun se => decide (c' ≤ se.2)) =
      l.filter (fun se => decide (c' ≤ se.2)) := by
  induction l with
  | nil => rfl
  | cons hd tl ih =>
      by_cases h1 : c ≤ hd.2
      · by_cases h2 : c' ≤ hd.2 <;> simp [List.filter_cons, h1, h2, ih]
      · have h2 : ¬ c' ≤ hd.2 := fun hh => h1 (h.trans hh)
        simp [List.filter_cons, h1, h2, ih]

/-- The invariant of the duty-cycle run: the tracker's parameters are `W`
and `L`, its lazily pruned ledger is the history filtered at the last prune
cutoff `c`, history intervals are well-formed, and — the payload — every
trailing window of length `W` over the *full* history holds at most `L*W`
of airtime. -/
def dcInv (W L c : ℚ) (tr : DutyCycleTracker) (hist : List (ℚ × ℚ)) : Prop :=
  tr.window_s = W ∧ tr.limit = L ∧
    (∀ se ∈ hist, se.1 ≤ se.2) ∧
    tr.usage = hist.filter (fun se => decide (c ≤ se.2)) ∧
    ∀ τ : ℚ, windowUsage hist τ W ≤ L * W

theorem dcInv_step (W L c now d : ℚ) (tr : DutyCycleTracker)
    (hist : List (ℚ × ℚ)) (hW : 0 < W) (hL : 0 ≤ L) (hc : c ≤ now - W)
    (hd : 0 ≤ d) (hinv : dcInv W L c tr hist) :
    dcInv W L (now - W) (zigbeeTx tr now d 0 0).2
      (if (zigbeeTx tr now d 0 0).1 = true then hist ++ [(now, now + d)]
       else hist) := by
  obtain ⟨hWin, hLim, hse, hus, hbound⟩ := hinv
  have hprune : (tr.prune now).usage =
      hist.filter (fun se => decide (now - W ≤ se.2)) := by
    unfold DutyCycleTracker.prune
    rw [hWin, hus]
    exact filter_cutoff_mono c (now - W) hc hist
  have hpw : (tr.prune now).window_s = W := hWin
  have hpl : (tr.prune now).limit = L := hLim
  by_cases hok :
      ((tr.prune now).usedTime + d) / (tr.prune now).window_s ≤ (tr.prune now).limit
  · have hzig : zigbeeTx tr now d 0 0 =
        (true, (tr.prune now).record now (now + d)) := by
      unfold zigbeeTx DutyCycleTracker.can_tx
      rw [show now + 0 + d + 0 = now + d from by ring]
      simp only [decide_eq_true_eq, if_pos hok]
    rw [hzig]
    show dcInv W L (now - W) ((tr.prune now).record now (now + d))
      (hist ++ [(now, now + d)])
    refine ⟨hpw, hpl, ?_, ?_, ?_⟩
    · intro se hmem
      rcases List.mem_append.mp hmem with hmem | hmem
      · exact hse se hmem
      · simp only [List.mem_singleton] at hmem
        subst hmem
        simpa using hd
    · unfold DutyCycleTracker.record
      rw [hprune, List.filter_append]
      congr 1
      simp only [List.filter_cons, List.filter_nil]
      rw [if_pos]
      simp only [decide_eq_true_eq]
      linarith
    · intro τ
      have hcheck : (tr.prune now).usedTime + d ≤ L * W := by
        rw [hpw, hpl] at hok
        calc (tr.prune now).usedTime + d
            = (((tr.prune now).usedTime + d) / W) * W := by field_simp
          _ ≤ L * W := mul_le_mul_of_nonneg_right hok hW.le
      rw [windowUsage_append]
      have hnew : windowUsage [(now, now + d)] τ W =
          intervalOverlap now (now + d) (τ - W) τ := by
        simp [windowUsage]
      rw [hnew]
      rcases le_or_lt τ now with hτ | hτ
      · have h0 : intervalOverlap now (now + d) (τ - W) τ = 0 :=
          intervalOverlap_zero_of_ge _ _ _ _ hτ
        have := hbound τ
        linarith
      · have hsplit := windowUsage_filter_split
          (fun se => decide (now - W ≤ se.2)) hist τ W
        have hdropped :
            windowUsage
              (hist.filter (fun se => !(decide (now - W ≤ se.2)))) τ W = 0 := by
          apply windowUsage_eq_zero
          intro se hmem
          have hlt : ¬ (now - W ≤ se.2) := by
            have := (List.mem_filter.mp hmem).2
            simpa using this
          apply intervalOverlap_zero_of_le
          linarith
        have hkept :
            windowUsage (hist.filter (fun se => decide (now - W ≤ se.2))) τ W ≤
              (tr.prune now).usedTime := by
          have hwf : ∀ se ∈ hist.filter (fun se => decide (now - W ≤ se.2)),
              se.1 ≤ se.2 :=
            fun se hmem => hse se (List.mem_filter.mp hmem).1
          have h1 := windowUsage_le_sum _ hwf τ W
          unfold DutyCycleTracker.usedTime
          rw [hprune]
          exact h1
        have hnewle : intervalOverlap now (now + d) (τ - W) τ ≤ d := by
          have h2 := intervalOverlap_le_len now (now + d) (τ - W) τ (by linarith)
          linarith
        linarith
  · have hzig : zigbeeTx tr now d 0 0 = (false, tr.prune now) := by
      unfold zigbeeTx DutyCycleTracker.can_tx
      simp only [decide_eq_true_eq, if_neg hok]
    rw [hzig]
    show dcInv W L (now - W) (tr.prune now) hist
    exact ⟨hpw, hpl, hse, hprune, hbound⟩

theorem dcInv_run (W L : ℚ) (hW : 0 < W) (hL : 0 ≤ L) :
    ∀ (steps : List (ℚ × ℚ)) (t0 c : ℚ) (tr : DutyCycleTracker)
      (hist : List (ℚ × ℚ)), chron t0 steps → c ≤ t0 - W →
      dcInv W L c tr hist →
      ∀ τ : ℚ, windowUsage (zigbeeRun (tr, hist) steps).2 τ W ≤ L * W
  | [], t0, c, tr, hist, _, _, hinv, τ => by
      simpa [zigbeeRun] using hinv.2.2.2.2 τ
  | (now, d) :: rest, t0, c, tr, hist, hch, hc, hinv, τ => by
      obtain ⟨h1, h2, h3⟩ := hch
      have hstep := dcInv_step W L c now d tr hist hW hL (by linarith) h2 hinv
      have hrec := dcInv_run W L hW hL rest now (now - W) (zigbeeTx tr now d 0 0).2
        (if (zigbeeTx tr now d 0 0).1 = true then hist ++ [(now, now + d)] else hist)
        h3 (le_refl _) hstep τ
      simpa [zigbeeRun] using hrec

/-- C3 (amended): for every chronological sequence of gated Zigbee
transmissions whose recorded interval equals the checked raw transmit
duration (zero contention/retry time), the total accepted airtime falling
inside any trailing window of length `W`, measured over the full history of
accepted transmissions, never exceeds `L * W` — at every point in simulated
time (every prefix of a chronological run is chronological, so the bound at
intermediate times follows by applying the theorem to the prefix). -/
theorem duty_cycle_window_bound (W L t0 τ : ℚ) (steps : List (ℚ × ℚ))
    (hW : 0 < W) (hL : 0 ≤ L) (hch : chron t0 steps) :
    windowUsage (zigbeeRun (⟨W, L, []⟩, []) steps).2 τ W ≤ L * W :=
  dcInv_run W L hW hL steps t0 (t0 - W) ⟨W, L, []⟩ [] hch (le_refl _)
    ⟨rfl, rfl, by simp, rfl, fun τ' => by
      simp only [windowUsage, List.map_nil, List.sum_nil]
      exact mul_nonneg hL hW.le⟩ τ

/-- Witness for C3's amended theorem: two unit transmissions, window 4,
limit 1/2. -/
theorem duty_cycle_window_bound_witness :
    windowUsage (zigbeeRun (⟨4, 1/2, []⟩, []) [(0, 1), (10, 1)]).2 11 4 ≤ (1/2) * 4 :=
  duty_cycle_window_bound 4 (1/2) 0 11 [(0, 1), (10, 1)] (by norm_num) (by norm_num)
    (by refine ⟨by norm_num, by norm_num, by norm_num, by norm_num, trivial⟩)

/-- C3 counterexample (claim as stated, against the code's actual
recording): with window `W = 4` and limit `L = 1/2` (budget 2), a single
transmission of raw duration 2 passes the gate, but its recorded interval
also contains 1 s of contention delay, so the trailing window at `t = 3`
holds 3 s of recorded airtime — exceeding `L*W = 2`.  A MAC retry
(`mac_retry_s = duration_s + backoff`) widens the excess further. -/
theorem duty_cycle_claim_counterexample :
    (zigbeeTx ⟨4, 1/2, []⟩ 0 2 1 0).1 = true ∧
      windowUsage (zigbeeTx ⟨4, 1/2, []⟩ 0 2 1 0).2.usage 3 4 = 3 ∧
      ¬((3 : ℚ) ≤ (1/2) * 4) := by
  refine ⟨by decide, ?_, by norm_num⟩
  decide
